import Mathlib

/-!
Verification of the COCO data-ingestion component of the
NaturalInteractionVision-RAG repository.

The filesystem is shallowly embedded as a tree of named entries; paths are
lists of path components (what `os.path.join` produces on the source's
relative paths).  Every component of `data_ingestion.py`, `config_entity.py`
and `main.py` that the claims mention is translated into an executable Lean
definition over this model, and the claims are settled as theorems below the
definitions.
-/

namespace NIVRag

/-- A filesystem tree.  A file carries its byte content and, when it is a
readable zip archive, the list of archive entries (entry path, entry
content); a directory carries its children in directory-listing order. -/
inductive FSTree where
  | file (content : String) (zipEntries : Option (List (List String × String)))
  | dir (children : List (String × FSTree))

/-- Look up a child entry by name (first match, as in a real directory where
names are unique). -/
def lookupChild (n : String) : List (String × FSTree) → Option FSTree
  | [] => none
  | (m, t) :: rest => if m = n then some t else lookupChild n rest

/-- Replace the first child entry with the given name. -/
def replaceChild (n : String) (v : FSTree) : List (String × FSTree) → List (String × FSTree)
  | [] => []
  | (m, t) :: rest => if m = n then (m, v) :: rest else (m, t) :: replaceChild n v rest

/-- Resolve a path in the tree (`os.path` style lookup). -/
def getEntry : FSTree → List String → Option FSTree
  | t, [] => some t
  | FSTree.file _ _, _ :: _ => none
  | FSTree.dir cs, n :: rest =>
    match lookupChild n cs with
    | some t => getEntry t rest
    | none => none

/-- Model of `os.path.exists`. -/
def existsPathB (fs : FSTree) (p : List String) : Bool :=
  (getEntry fs p).isSome

/-- Model of `Path.is_dir` / `os.path.isdir`. -/
def isDirB (fs : FSTree) (p : List String) : Bool :=
  match getEntry fs p with
  | some (FSTree.dir _) => true
  | _ => false

/-- Model of `Path.is_file`. -/
def isFileB (fs : FSTree) (p : List String) : Bool :=
  match getEntry fs p with
  | some (FSTree.file _ _) => true
  | _ => false

/-- Write the value `v` at path `p`, creating missing intermediate
directories (the `os.makedirs` behaviour used by `shutil.copytree`), and
failing (`none`) when an intermediate component exists as a file.  An
existing entry at `p` itself is replaced. -/
def setEntry : FSTree → List String → FSTree → Option FSTree
  | _, [], v => some v
  | FSTree.file _ _, _ :: _, _ => none
  | FSTree.dir cs, n :: rest, v =>
    match rest with
    | [] =>
      match lookupChild n cs with
      | some _ => some (FSTree.dir (replaceChild n v cs))
      | none => some (FSTree.dir (cs ++ [(n, v)]))
    | _ :: _ =>
      match lookupChild n cs with
      | some t => (setEntry t rest v).map (fun sub => FSTree.dir (replaceChild n sub cs))
      | none => (setEntry (FSTree.dir []) rest v).map (fun sub => FSTree.dir (cs ++ [(n, sub)]))

/-- Boolean list-prefix test on path components. -/
def isPrefixList : List String → List String → Bool
  | [], _ => true
  | _ :: _, [] => false
  | a :: as, b :: bs => (a = b) && isPrefixList as bs

/-- Two paths are comparable when one is a prefix of the other (one names an
entry inside the subtree rooted at the other, or they coincide). -/
def pathsComparable (a b : List String) : Bool :=
  isPrefixList a b || isPrefixList b a

theorem lookupChild_append_of_some {n : String} {cs l : List (String × FSTree)} {t : FSTree}
    (h : lookupChild n cs = some t) : lookupChild n (cs ++ l) = some t := by
  induction cs with
  | nil => simp [lookupChild] at h
  | cons c rest ih =>
    obtain ⟨m, u⟩ := c
    by_cases hm : m = n
    · simp [lookupChild, hm] at h ⊢; exact h
    · simp [lookupChild, hm] at h ⊢; exact ih h

theorem lookupChild_append_self {n : String} {cs : List (String × FSTree)} {v : FSTree}
    (h : lookupChild n cs = none) : lookupChild n (cs ++ [(n, v)]) = some v := by
  induction cs with
  | nil => simp [lookupChild]
  | cons c rest ih =>
    obtain ⟨m, u⟩ := c
    by_cases hm : m = n
    · simp [lookupChild, hm] at h
    · simp [lookupChild, hm] at h ⊢; exact ih h

theorem lookupChild_append_ne {m n : String} {cs : List (String × FSTree)} {v : FSTree}
    (h : m ≠ n) : lookupChild m (cs ++ [(n, v)]) = lookupChild m cs := by
  induction cs with
  | nil => simp [lookupChild, Ne.symm h]
  | cons c rest ih =>
    obtain ⟨k, u⟩ := c
    by_cases hk : k = m
    · simp [lookupChild, hk]
    · simp [lookupChild, hk, ih]

theorem lookupChild_replaceChild_self {n : String} {cs : List (String × FSTree)} {t v : FSTree}
    (h : lookupChild n cs = some t) : lookupChild n (replaceChild n v cs) = some v := by
  induction cs with
  | nil => simp [lookupChild] at h
  | cons c rest ih =>
    obtain ⟨m, u⟩ := c
    by_cases hm : m = n
    · simp [lookupChild, replaceChild, hm]
    · simp [lookupChild, replaceChild, hm] at h ⊢; exact ih h

theorem lookupChild_replaceChild_ne {m n : String} {cs : List (String × FSTree)} {v : FSTree}
    (h : m ≠ n) : lookupChild m (replaceChild n v cs) = lookupChild m cs := by
  induction cs with
  | nil => simp [replaceChild]
  | cons c rest ih =>
    obtain ⟨k, u⟩ := c
    by_cases hk : k = n
    · subst hk
      simp [replaceChild, lookupChild, Ne.symm h, ih]
    · by_cases hk2 : k = m
      · subst hk2
        simp [replaceChild, lookupChild, hk, h]
      · simp [replaceChild, lookupChild, hk, hk2, ih]

theorem getEntry_setEntry_self : ∀ (p : List String) (fs v fs' : FSTree),
    setEntry fs p v = some fs' → getEntry fs' p = some v := by
  intro p
  induction p with
  | nil =>
    intro fs v fs' h
    simp [setEntry] at h
    subst h
    simp [getEntry]
  | cons n rest ih =>
    intro fs v fs' h
    cases fs with
    | file c z => simp [setEntry] at h
    | dir cs =>
      cases rest with
      | nil =>
        cases hl : lookupChild n cs with
        | some t =>
          simp [setEntry, hl] at h
          subst h
          simp [getEntry, lookupChild_replaceChild_self hl]
        | none =>
          simp [setEntry, hl] at h
          subst h
          simp [getEntry, lookupChild_append_self hl]
      | cons r rs =>
        cases hl : lookupChild n cs with
        | some t =>
          simp [setEntry, hl, Option.map_eq_some'] at h
          obtain ⟨sub, hsub, hfs⟩ := h
          subst hfs
          simp [getEntry, lookupChild_replaceChild_self hl]
          exact ih t v sub hsub
        | none =>
          simp [setEntry, hl, Option.map_eq_some'] at h
          obtain ⟨sub, hsub, hfs⟩ := h
          subst hfs
          simp [getEntry, lookupChild_append_self hl]
          exact ih (FSTree.dir []) v sub hsub

theorem existsPath_setEntry_preserve : ∀ (p : List String) (fs v fs' : FSTree) (q : List String),
    setEntry fs p v = some fs' → existsPathB fs p = false →
    existsPathB fs q = true → existsPathB fs' q = true := by
  intro p
  induction p with
  | nil =>
    intro fs v fs' q h hfalse hq
    simp [existsPathB, getEntry] at hfalse
  | cons n rest ih =>
    intro fs v fs' q h hfalse hq
    cases fs with
    | file c z => simp [setEntry] at h
    | dir cs =>
      cases rest with
      | nil =>
        cases hl : lookupChild n cs with
        | some t =>
          simp [existsPathB, getEntry, hl] at hfalse
        | none =>
          simp [setEntry, hl] at h
          subst h
          cases q with
          | nil => simp [existsPathB, getEntry]
          | cons m qs =>
            simp only [existsPathB, getEntry] at hq ⊢
            cases hql : lookupChild m cs with
            | some u =>
              rw [lookupChild_append_of_some hql]
              rw [hql] at hq
              exact hq
            | none => rw [hql] at hq; simp at hq
      | cons r rs =>
        cases hl : lookupChild n cs with
        | some t =>
          simp [setEntry, hl, Option.map_eq_some'] at h
          obtain ⟨sub, hsub, hfs⟩ := h
          subst hfs
          simp only [existsPathB, getEntry, hl] at hfalse
          cases q with
          | nil => simp [existsPathB, getEntry]
          | cons m qs =>
            by_cases hmn : m = n
            · subst hmn
              simp only [existsPathB, getEntry, hl] at hq ⊢
              rw [lookupChild_replaceChild_self hl]
              exact ih t v sub qs hsub (by simp [existsPathB, hfalse]) hq
            · simp only [existsPathB, getEntry] at hq ⊢
              rw [lookupChild_replaceChild_ne hmn]
              exact hq
        | none =>
          simp [setEntry, hl, Option.map_eq_some'] at h
          obtain ⟨sub, hsub, hfs⟩ := h
          subst hfs
          cases q with
          | nil => simp [existsPathB, getEntry]
          | cons m qs =>
            simp only [existsPathB, getEntry] at hq ⊢
            cases hql : lookupChild m cs with
            | some u =>
              rw [lookupChild_append_of_some hql]
              rw [hql] at hq
              exact hq
            | none => rw [hql] at hq; simp at hq

theorem getEntry_setEntry_off : ∀ (p : List String) (fs v fs' : FSTree) (q : List String),
    setEntry fs p v = some fs' →
    isPrefixList p q = false → isPrefixList q p = false →
    getEntry fs' q = getEntry fs q := by
  intro p
  induction p with
  | nil =>
    intro fs v fs' q h hpq hqp
    simp [isPrefixList] at hpq
  | cons n rest ih =>
    intro fs v fs' q h hpq hqp
    cases fs with
    | file c z => simp [setEntry] at h
    | dir cs =>
      cases q with
      | nil => simp [isPrefixList] at hqp
      | cons m qs =>
        by_cases hmn : m = n
        · subst hmn
          simp only [isPrefixList, decide_eq_true_eq, Bool.and_eq_false_iff] at hpq hqp
          have hpq' : isPrefixList rest qs = false := by
            rcases hpq with h1 | h1
            · simp at h1
            · exact h1
          have hqp' : isPrefixList qs rest = false := by
            rcases hqp with h1 | h1
            · simp at h1
            · exact h1
          cases rest with
          | nil => simp [isPrefixList] at hpq'
          | cons r rs =>
            cases hl : lookupChild m cs with
            | some t =>
              simp [setEntry, hl, Option.map_eq_some'] at h
              obtain ⟨sub, hsub, hfs⟩ := h
              subst hfs
              simp only [getEntry, lookupChild_replaceChild_self hl, hl]
              exact ih t v sub qs hsub hpq' hqp'
            | none =>
              simp [setEntry, hl, Option.map_eq_some'] at h
              obtain ⟨sub, hsub, hfs⟩ := h
              subst hfs
              simp only [getEntry, lookupChild_append_self hl, hl]
              cases qs with
              | nil => simp [isPrefixList] at hqp'
              | cons x xs =>
                have := ih (FSTree.dir []) v sub (x :: xs) hsub hpq' hqp'
                rw [this]
                simp [getEntry, lookupChild]
        · cases rest with
          | nil =>
            cases hl : lookupChild n cs with
            | some t =>
              simp [setEntry, hl] at h
              subst h
              simp only [getEntry, lookupChild_replaceChild_ne hmn]
            | none =>
              simp [setEntry, hl] at h
              subst h
              simp only [getEntry, lookupChild_append_ne hmn]
          | cons r rs =>
            cases hl : lookupChild n cs with
            | some t =>
              simp [setEntry, hl, Option.map_eq_some'] at h
              obtain ⟨sub, hsub, hfs⟩ := h
              subst hfs
              simp only [getEntry, lookupChild_replaceChild_ne hmn]
            | none =>
              simp [setEntry, hl, Option.map_eq_some'] at h
              obtain ⟨sub, hsub, hfs⟩ := h
              subst hfs
              simp only [getEntry, lookupChild_append_ne hmn]

/-! ## Configuration and constants (`constants/training_pipeline/__init__.py`,
`entity/config_entity.py`, `entity/artifact_entity.py`) -/

def DATASET_NAME : String := "awsaf49/coco-2017-dataset"

def ARTIFACTS_DIR : String := "artifacts"

def TRAINING_PIPELINE_NAME : String := "visionllm_interaction_pipeline"

def DATA_INGESTION_DIR_NAME : String := "data_ingestion"

def DATA_INGESTION_MODE : String := "register"

def RAW_DATA_DIR : List String := ["data", "raw"]

def RAW_COCO_TRAIN_IMAGE_DIR : List String := ["data", "raw", "train2017"]

def RAW_COCO_VAL_IMAGE_DIR : List String := ["data", "raw", "val2017"]

def RAW_COCO_ANN_DIR : List String := ["data", "raw", "annotations"]

def RAW_COCO_TRAIN_ANN_FILE : List String := ["data", "raw", "annotations", "instances_train2017.json"]

def RAW_COCO_VAL_ANN_FILE : List String := ["data", "raw", "annotations", "instances_val2017.json"]

def DATA_INGESTION_MANIFEST_FILE : String := "data_manifest.yaml"

/-- A `datetime.datetime` value, to the precision the pipeline's
`strftime` format observes. -/
structure PyDatetime where
  month : Nat
  day : Nat
  year : Nat
  hour : Nat
  minute : Nat
  second : Nat

/-- Zero-padded two-digit field, as `strftime` produces. -/
def pad2 (n : Nat) : String :=
  if n < 10 then "0" ++ toString n else toString n

/-- Zero-padded four-digit year field. -/
def pad4 (n : Nat) : String :=
  if n < 10 then "000" ++ toString n
  else if n < 100 then "00" ++ toString n
  else if n < 1000 then "0" ++ toString n
  else toString n

/-- Model of `timestamp.strftime("%m_%d_%Y_%H_%M_%S")`. -/
def strftimeRunFormat (t : PyDatetime) : String :=
  pad2 t.month ++ "_" ++ pad2 t.day ++ "_" ++ pad4 t.year ++ "_" ++
    pad2 t.hour ++ "_" ++ pad2 t.minute ++ "_" ++ pad2 t.second

structure TrainingPipelineConfig where
  pipeline_name : String
  artifact_name : String
  artifact_dir : List String
  timestamp : String

/-- Model of `TrainingPipelineConfig.__init__(self, timestamp: datetime = datetime.now())`.

Python evaluates the default argument expression `datetime.now()` exactly
once, when the `def` line is executed (at class-body execution, at module
load time); each construction that omits the argument receives that one
value.  `defaultNowAtImport` is that per-process value and `callNow` is the
wall clock at the moment of the construction — which the code never reads
when the argument is omitted. -/
def trainingPipelineConfig_init (defaultNowAtImport : PyDatetime) (callNow : PyDatetime)
    (timestampArg : Option PyDatetime) : TrainingPipelineConfig :=
  let _ := callNow
  let ts := strftimeRunFormat (timestampArg.getD defaultNowAtImport)
  { pipeline_name := TRAINING_PIPELINE_NAME
    artifact_name := ARTIFACTS_DIR
    artifact_dir := [ARTIFACTS_DIR, ts]
    timestamp := ts }

structure DataIngestionConfig where
  dataset_name : String
  ingestion_mode : String
  data_ingestion_dir : List String
  raw_data_dir : List String
  raw_train_image_dir : List String
  raw_val_image_dir : List String
  raw_annotation_dir : List String
  raw_train_annotation_file : List String
  raw_val_annotation_file : List String
  manifest_file_path : List String

/-- Model of `DataIngestionConfig.__init__` resolved against a pipeline config. -/
def dataIngestionConfig_init (tpc : TrainingPipelineConfig) : DataIngestionConfig :=
  let ingestionDir := tpc.artifact_dir ++ [DATA_INGESTION_DIR_NAME]
  { dataset_name := DATASET_NAME
    ingestion_mode := DATA_INGESTION_MODE
    data_ingestion_dir := ingestionDir
    raw_data_dir := RAW_DATA_DIR
    raw_train_image_dir := RAW_COCO_TRAIN_IMAGE_DIR
    raw_val_image_dir := RAW_COCO_VAL_IMAGE_DIR
    raw_annotation_dir := RAW_COCO_ANN_DIR
    raw_train_annotation_file := RAW_COCO_TRAIN_ANN_FILE
    raw_val_annotation_file := RAW_COCO_VAL_ANN_FILE
    manifest_file_path := ingestionDir ++ [DATA_INGESTION_MANIFEST_FILE] }

/-- Model of `DataIngestionArtifact` (dataclass in `artifact_entity.py`). -/
structure DataIngestionArtifact where
  data_ingestion_dir : List String
  manifest_file_path : List String
  ingestion_mode : String

/-- The error kinds a run can surface (each one is a `CustomException` in the
source; the constructor records which message/payload it carries). -/
inductive IngestionError where
  | acquisitionFailure
  | extractionFailure
  | rootNotFound (base : List String) (trainDirname : String)
  | missingSource (p : List String)
  | copyFailure
  | missingTrainAnnFile (p : List String)
  | missingRequired (p : List String)
  | manifestWriteFailure
  | prepareFailure
  | attributeError (name : String)

/-- Outcome of a stateful pipeline step: the filesystem reached is reported
both on success and on failure (raising an exception in Python does not roll
back completed filesystem effects). -/
inductive StepResult where
  | ok (fs : FSTree)
  | err (e : IngestionError) (fs : FSTree)

/-- Outcome of a whole run. -/
inductive RunOutcome where
  | ok (art : DataIngestionArtifact) (fs : FSTree)
  | err (e : IngestionError) (fs : FSTree)

/-! ## Helpers of `DataIngestion` (`components/data_ingestion.py`) -/

/-- Model of `Path(p).name`: the final path component. -/
def pathName (p : List String) : String :=
  p.getLastD ("")

/-- Model of `Path(name).suffix` of a file name: the last dot-extension, empty when
there is no dot or the only dot is the leading one of a hidden file. -/
def pathSuffix (n : String) : String :=
  match n.splitOn (".") with
  | [] => ""
  | [_] => ""
  | parts =>
    if parts.headD ("") = "" && parts.length = 2 then ""
    else "." ++ parts.getLastD ("")

/-- Model of `DataIngestion._is_zip`: the path is a file whose (lower-cased) suffix is
`.zip`. -/
def is_zip (fs : FSTree) (p : List String) : Bool :=
  isFileB fs p && ((pathSuffix (pathName p)).toLower = ".zip")

/-- Model of `DataIngestion._safe_mkdir` (`os.makedirs(dir_path, exist_ok=True)`):
no-op when the directory exists, failure when the path or one of its
intermediate components exists as a file. -/
def safeMkdir (fs : FSTree) (p : List String) : Option FSTree :=
  if isDirB fs p then some fs
  else if existsPathB fs p then none
  else setEntry fs p (FSTree.dir [])

/-- Model of `open(path, "w")` followed by a full write: overwrites a regular file or
creates the file inside an existing parent directory; fails when the parent
directory is missing or the target is a directory. -/
def writeFile (fs : FSTree) (p : List String) (content : String) : Option FSTree :=
  if isDirB fs p then none
  else if isDirB fs p.dropLast then setEntry fs p (FSTree.file content none)
  else none

/-- Extract zip entries below `destBase`: each entry's parent directories are
created and the entry file is written, overwriting an existing file;
extraction fails when an entry collides with an existing directory or a file
blocks an intermediate component. -/
def extractEntries (fs : FSTree) (destBase : List String) :
    List (List String × String) → Option FSTree
  | [] => some fs
  | (p, c) :: rest =>
    if isDirB fs (destBase ++ p) then none
    else
      match setEntry fs (destBase ++ p) (FSTree.file c none) with
      | some fs1 => extractEntries fs1 destBase rest
      | none => none

/-- Model of `DataIngestion._extract_zip`: create the target directory, expand the
archive's entries into it, and return the updated filesystem. -/
def extract_zip (fs : FSTree) (zipPath extractTo : List String) : Option FSTree :=
  match safeMkdir fs extractTo with
  | none => none
  | some fs0 =>
    match getEntry fs0 zipPath with
    | some (FSTree.file _ (some entries)) => extractEntries fs0 extractTo entries
    | _ => none

/-- A candidate qualifies as the COCO root when it contains an entry named
like the train-image directory and an entry named `annotations` (the source
tests `.exists()`, not `.is_dir()`). -/
def qualifiesAsRoot (fs : FSTree) (c : List String) (trainDirname : String) : Bool :=
  existsPathB fs (c ++ [trainDirname]) && existsPathB fs (c ++ ["annotations"])

/-- Model of `base.glob("*")` filtered by `is_dir()`: the immediate child directories
of `base`, in directory-listing order. -/
def childDirs (fs : FSTree) (base : List String) : List (List String) :=
  match getEntry fs base with
  | some (FSTree.dir cs) =>
    cs.filterMap (fun ct =>
      match ct.2 with
      | FSTree.dir _ => some (base ++ [ct.1])
      | _ => none)
  | _ => []

/-- Model of `base.glob("*/*")` filtered by `is_dir()`: the grandchild directories of
`base`, grouped under each child in directory-listing order. -/
def grandchildDirs (fs : FSTree) (base : List String) : List (List String) :=
  match getEntry fs base with
  | some (FSTree.dir cs) =>
    cs.foldr (fun ct acc =>
      (match ct.2 with
       | FSTree.dir gs =>
         gs.filterMap (fun gt =>
           match gt.2 with
           | FSTree.dir _ => some (base ++ [ct.1, gt.1])
           | _ => none)
       | _ => []) ++ acc) []
  | _ => []

/-- Model of `DataIngestion._find_coco_root`: probe the base directory itself, then
the candidate list `[base] + child dirs + grandchild dirs`, returning the
first candidate that qualifies, and failing with an error naming the base
directory and the expected train-directory name otherwise. -/
def find_coco_root (fs : FSTree) (base : List String) (trainDirname : String) :
    Except IngestionError (List String) :=
  if qualifiesAsRoot fs base trainDirname then Except.ok base
  else
    let cands := [base] ++ childDirs fs base ++ grandchildDirs fs base
    match cands.find? (fun c => qualifiesAsRoot fs c trainDirname) with
    | some c => Except.ok c
    | none => Except.error (IngestionError.rootNotFound base trainDirname)

/-- Model of `shutil.copytree(src, dst)`: requires `src` to be an existing directory
and copies its whole subtree to `dst` (creating intermediate directories). -/
def copytree (fs : FSTree) (src dst : List String) : Option FSTree :=
  match getEntry fs src with
  | some (FSTree.dir cs) => setEntry fs dst (FSTree.dir cs)
  | _ => none

/-- Model of `DataIngestion._copytree_if_missing`: skip when the destination exists,
otherwise copy the whole subtree. -/
def copytreeIfMissing (fs : FSTree) (src dst : List String) :
    Except IngestionError FSTree :=
  if existsPathB fs dst then Except.ok fs
  else
    match copytree fs src dst with
    | some fs1 => Except.ok fs1
    | none => Except.error IngestionError.copyFailure

/-- The basename the locator and materializer expect for train images
(`Path(self.config.raw_train_image_dir).name`, i.e. `"train2017"`). -/
def trainDirname (cfg : DataIngestionConfig) : String :=
  pathName cfg.raw_train_image_dir

/-- Model of `Path(self.config.raw_val_image_dir).name`, i.e. `"val2017"`. -/
def valDirname (cfg : DataIngestionConfig) : String :=
  pathName cfg.raw_val_image_dir

/-- The copy phase of `DataIngestion._prepare_raw_data_dir` (lines 136-161):
check the two mandatory sources, then copy train images, optionally copy
validation images, then copy the annotations directory. -/
def materializeCopies (cfg : DataIngestionConfig) (root : List String) (fs : FSTree) :
    StepResult :=
  let src_train := root ++ [trainDirname cfg]
  let src_val := root ++ [valDirname cfg]
  let src_ann := root ++ ["annotations"]
  if existsPathB fs src_train = false then
    StepResult.err (IngestionError.missingSource src_train) fs
  else if existsPathB fs src_ann = false then
    StepResult.err (IngestionError.missingSource src_ann) fs
  else
    match copytreeIfMissing fs src_train cfg.raw_train_image_dir with
    | Except.error e => StepResult.err e fs
    | Except.ok fs1 =>
      match
        (if existsPathB fs1 src_val then copytreeIfMissing fs1 src_val cfg.raw_val_image_dir
         else Except.ok fs1) with
      | Except.error e => StepResult.err e fs1
      | Except.ok fs2 =>
        match copytreeIfMissing fs2 src_ann cfg.raw_annotation_dir with
        | Except.error e => StepResult.err e fs2
        | Except.ok fs3 => StepResult.ok fs3

/-- Lines 136-171 of `DataIngestion._prepare_raw_data_dir`: the copy phase
followed by the train-annotation-file check (a missing validation-annotation
file is only warned about). -/
def materializeRaw (cfg : DataIngestionConfig) (root : List String) (fs : FSTree) :
    StepResult :=
  match materializeCopies cfg root fs with
  | StepResult.err e fs1 => StepResult.err e fs1
  | StepResult.ok fs3 =>
    if existsPathB fs3 cfg.raw_train_annotation_file = false then
      StepResult.err
        (IngestionError.missingTrainAnnFile cfg.raw_train_annotation_file) fs3
    else StepResult.ok fs3

/-- The tail of `_prepare_raw_data_dir` once the working directory is known:
locate the COCO root, then materialize the raw layout. -/
def prepareFrom (cfg : DataIngestionConfig) (working : List String) (fs : FSTree) :
    StepResult :=
  match find_coco_root fs working (trainDirname cfg) with
  | Except.error e => StepResult.err e fs
  | Except.ok root => materializeRaw cfg root fs

/-- Model of `DataIngestion._prepare_raw_data_dir`: ensure the raw-data directory,
extract the payload when it is a zip archive, then locate and materialize. -/
def prepare_raw_data_dir (cfg : DataIngestionConfig) (downloadedPath : List String)
    (fs : FSTree) : StepResult :=
  match safeMkdir fs cfg.raw_data_dir with
  | none => StepResult.err IngestionError.prepareFailure fs
  | some fs0 =>
    if is_zip fs0 downloadedPath then
      let tmp := cfg.raw_data_dir ++ ["_tmp_extract"]
      match extract_zip fs0 downloadedPath tmp with
      | none => StepResult.err IngestionError.extractionFailure fs0
      | some fs1 => prepareFrom cfg tmp fs1
    else prepareFrom cfg downloadedPath fs0

/-- Model of `DataIngestion._validate_raw_paths`: the four required paths are checked
in source order and the first missing one is fatal; the two validation paths
only produce warnings. -/
def validate_raw_paths (cfg : DataIngestionConfig) (fs : FSTree) : StepResult :=
  if existsPathB fs cfg.raw_data_dir = false then
    StepResult.err (IngestionError.missingRequired cfg.raw_data_dir) fs
  else if existsPathB fs cfg.raw_train_image_dir = false then
    StepResult.err (IngestionError.missingRequired cfg.raw_train_image_dir) fs
  else if existsPathB fs cfg.raw_annotation_dir = false then
    StepResult.err (IngestionError.missingRequired cfg.raw_annotation_dir) fs
  else if existsPathB fs cfg.raw_train_annotation_file = false then
    StepResult.err (IngestionError.missingRequired cfg.raw_train_annotation_file) fs
  else StepResult.ok fs

/-- The required paths of the validator, in the order the source checks
them. -/
def requiredPaths (cfg : DataIngestionConfig) : List (List String) :=
  [cfg.raw_data_dir, cfg.raw_train_image_dir, cfg.raw_annotation_dir,
   cfg.raw_train_annotation_file]

/-- Join path components back into the string the Python config holds. -/
def joinPath (p : List String) : String :=
  String.intercalate ("/") p

/-- Double-quote a scalar, as the manifest f-string does. -/
def quoteYaml (s : String) : String :=
  "\"" ++ s ++ "\""

/-- The exact YAML text `DataIngestion._write_manifest` produces. -/
def manifest_text (cfg : DataIngestionConfig) (created_at : String) : String :=
  "dataset:\n  name: coco2017\n  source: kagglehub\n  created_at: " ++
    quoteYaml created_at ++
    "\n\ningestion:\n  mode: " ++ quoteYaml cfg.ingestion_mode ++
    "\n\nraw:\n  root_dir: " ++ quoteYaml (joinPath cfg.raw_data_dir) ++
    "\n  train_images_dir: " ++ quoteYaml (joinPath cfg.raw_train_image_dir) ++
    "\n  val_images_dir: " ++ quoteYaml (joinPath cfg.raw_val_image_dir) ++
    "\n  annotation_dir: " ++ quoteYaml (joinPath cfg.raw_annotation_dir) ++
    "\n  train_annotation_file: " ++ quoteYaml (joinPath cfg.raw_train_annotation_file) ++
    "\n  val_annotation_file: " ++ quoteYaml (joinPath cfg.raw_val_annotation_file) ++
    "\n"

/-- The manifest as the spec documents it: ten key/value fields. -/
structure ManifestDoc where
  dataset_name : String
  dataset_source : String
  dataset_created_at : String
  ingestion_mode : String
  raw_root_dir : String
  raw_train_images_dir : String
  raw_val_images_dir : String
  raw_annotation_dir : String
  raw_train_annotation_file : String
  raw_val_annotation_file : String

/-- Render a `ManifestDoc` in the documented on-disk structure: a `dataset`
section with name/source/created_at, an `ingestion` section with the mode,
and a `raw` section with the five resolved raw paths plus the root. -/
def renderManifest (m : ManifestDoc) : String :=
  "dataset:\n  name: " ++ m.dataset_name ++
    "\n  source: " ++ m.dataset_source ++
    "\n  created_at: " ++ quoteYaml m.dataset_created_at ++
    "\n\ningestion:\n  mode: " ++ quoteYaml m.ingestion_mode ++
    "\n\nraw:\n  root_dir: " ++ quoteYaml m.raw_root_dir ++
    "\n  train_images_dir: " ++ quoteYaml m.raw_train_images_dir ++
    "\n  val_images_dir: " ++ quoteYaml m.raw_val_images_dir ++
    "\n  annotation_dir: " ++ quoteYaml m.raw_annotation_dir ++
    "\n  train_annotation_file: " ++ quoteYaml m.raw_train_annotation_file ++
    "\n  val_annotation_file: " ++ quoteYaml m.raw_val_annotation_file ++
    "\n"

/-- The manifest document a run with the given config and timestamp is
documented to record: fixed dataset name and source, the configured mode and
the config's resolved raw paths. -/
def manifestOfRun (cfg : DataIngestionConfig) (created_at : String) : ManifestDoc :=
  { dataset_name := "coco2017"
    dataset_source := "kagglehub"
    dataset_created_at := created_at
    ingestion_mode := cfg.ingestion_mode
    raw_root_dir := joinPath cfg.raw_data_dir
    raw_train_images_dir := joinPath cfg.raw_train_image_dir
    raw_val_images_dir := joinPath cfg.raw_val_image_dir
    raw_annotation_dir := joinPath cfg.raw_annotation_dir
    raw_train_annotation_file := joinPath cfg.raw_train_annotation_file
    raw_val_annotation_file := joinPath cfg.raw_val_annotation_file }

/-- Model of `DataIngestion._write_manifest`: ensure the stage artifact directory and
write the YAML manifest at the configured path. -/
def write_manifest (cfg : DataIngestionConfig) (created_at : String) (fs : FSTree) :
    StepResult :=
  match safeMkdir fs cfg.data_ingestion_dir with
  | none => StepResult.err IngestionError.manifestWriteFailure fs
  | some fs0 =>
    match writeFile fs0 cfg.manifest_file_path (manifest_text cfg created_at) with
    | none => StepResult.err IngestionError.manifestWriteFailure fs0
    | some fs1 => StepResult.ok fs1

/-- Model of `DataIngestion.initiate_data_ingestion`: acquire (the kagglehub download
is an external collaborator, modelled as an optional already-present local
path), prepare the raw layout, validate, write the manifest, and return the
artifact built from the configuration. -/
def initiate_data_ingestion (cfg : DataIngestionConfig)
    (downloaded : Option (List String)) (created_at : String) (fs : FSTree) :
    RunOutcome :=
  match downloaded with
  | none => RunOutcome.err IngestionError.acquisitionFailure fs
  | some dl =>
    match prepare_raw_data_dir cfg dl fs with
    | StepResult.err e fs1 => RunOutcome.err e fs1
    | StepResult.ok fs1 =>
      match validate_raw_paths cfg fs1 with
      | StepResult.err e fs2 => RunOutcome.err e fs2
      | StepResult.ok fs2 =>
        match write_manifest cfg created_at fs2 with
        | StepResult.err e fs3 => RunOutcome.err e fs3
        | StepResult.ok fs3 =>
          RunOutcome.ok
            { data_ingestion_dir := cfg.data_ingestion_dir
              manifest_file_path := cfg.manifest_file_path
              ingestion_mode := cfg.ingestion_mode } fs3

/-! ## The entry point (`main.py`) -/

/-- The attributes `DataIngestionConfig.__init__` defines (in assignment
order). -/
def dataIngestionConfigAttributes : List String :=
  ["dataset_name", "ingestion_mode", "data_ingestion_dir", "raw_data_dir",
   "raw_train_image_dir", "raw_val_image_dir", "raw_annotation_dir",
   "raw_train_annotation_file", "raw_val_annotation_file", "manifest_file_path"]

/-- The `data_ingestion_config` attributes `main()` reads before starting the
ingestion stage (lines 32-34 of `main.py`), in read order. -/
def mainDataIngestionConfigReads : List String :=
  ["dataset_name", "ingestion_mode", "dataset_format"]

/-- Model of `main()`: the logging prologue reads config attributes; reading an
attribute the config object does not define raises an `AttributeError`
(wrapped into the domain error) before `DataIngestion` is even constructed;
otherwise the run proceeds into `initiate_data_ingestion`. -/
def main_run (cfg : DataIngestionConfig) (downloaded : Option (List String))
    (created_at : String) (fs : FSTree) : RunOutcome :=
  match mainDataIngestionConfigReads.find?
      (fun a => !(dataIngestionConfigAttributes.contains a)) with
  | some a => RunOutcome.err (IngestionError.attributeError a) fs
  | none => initiate_data_ingestion cfg downloaded created_at fs

/-! ## Concrete fixtures used by witnesses and counterexamples -/

/-- A pipeline config built at a fixed clock reading. -/
def tpcW : TrainingPipelineConfig :=
  trainingPipelineConfig_init ⟨1, 2, 2024, 3, 4, 5⟩ ⟨1, 2, 2024, 3, 4, 5⟩ none

/-- The ingestion config resolved against `tpcW`. -/
def cfgW : DataIngestionConfig := dataIngestionConfig_init tpcW

/-- A downloaded payload directory holding a COCO root at its top level
(train images plus an annotations directory with the train annotation file;
no validation split). -/
def fsW : FSTree :=
  FSTree.dir [("download", FSTree.dir
    [("train2017", FSTree.dir []),
     ("annotations", FSTree.dir
       [("instances_train2017.json", FSTree.file ("x") none)])])]

/-- A base directory whose `train2017` and `annotations` entries are regular
files, not directories. -/
def fsC8 : FSTree :=
  FSTree.dir [("train2017", FSTree.file ("") none),
              ("annotations", FSTree.file ("") none)]

/-! ## Facts about `copytreeIfMissing` -/

theorem copytreeIfMissing_preserve {fs fs1 : FSTree} {s d : List String}
    (h : copytreeIfMissing fs s d = Except.ok fs1) :
    ∀ q, existsPathB fs q = true → existsPathB fs1 q = true := by
  intro q hq
  by_cases hd : existsPathB fs d
  · simp [copytreeIfMissing, hd] at h
    subst h
    exact hq
  · simp only [copytreeIfMissing, hd, Bool.false_eq_true, if_neg, if_false] at h
    cases hc : copytree fs s d with
    | none => rw [hc] at h; simp at h
    | some fsc =>
      rw [hc] at h
      simp at h
      subst h
      unfold copytree at hc
      cases hg : getEntry fs s with
      | none => rw [hg] at hc; simp at hc
      | some t =>
        rw [hg] at hc
        cases t with
        | file c z => simp at hc
        | dir cs =>
          simp at hc
          exact existsPath_setEntry_preserve d fs (FSTree.dir cs) fsc q hc
            (by simp [hd]) hq

theorem copytreeIfMissing_dst_exists {fs fs1 : FSTree} {s d : List String}
    (h : copytreeIfMissing fs s d = Except.ok fs1) :
    existsPathB fs1 d = true := by
  by_cases hd : existsPathB fs d
  · simp [copytreeIfMissing, hd] at h
    subst h
    exact hd
  · simp only [copytreeIfMissing, hd, Bool.false_eq_true, if_neg, if_false] at h
    cases hc : copytree fs s d with
    | none => rw [hc] at h; simp at h
    | some fsc =>
      rw [hc] at h
      simp at h
      subst h
      unfold copytree at hc
      cases hg : getEntry fs s with
      | none => rw [hg] at hc; simp at hc
      | some t =>
        rw [hg] at hc
        cases t with
        | file c z => simp at hc
        | dir cs =>
          simp at hc
          simp [existsPathB, getEntry_setEntry_self d fs (FSTree.dir cs) fsc hc]

theorem copytreeIfMissing_off {fs fs1 : FSTree} {s d q : List String}
    (h : copytreeIfMissing fs s d = Except.ok fs1)
    (hq : pathsComparable q d = false) :
    getEntry fs1 q = getEntry fs q := by
  by_cases hd : existsPathB fs d
  · simp [copytreeIfMissing, hd] at h
    subst h
    rfl
  · simp only [copytreeIfMissing, hd, Bool.false_eq_true, if_neg, if_false] at h
    cases hc : copytree fs s d with
    | none => rw [hc] at h; simp at h
    | some fsc =>
      rw [hc] at h
      simp at h
      subst h
      unfold copytree at hc
      cases hg : getEntry fs s with
      | none => rw [hg] at hc; simp at hc
      | some t =>
        rw [hg] at hc
        cases t with
        | file c z => simp at hc
        | dir cs =>
          simp at hc
          simp only [pathsComparable, Bool.or_eq_false_iff] at hq
          exact getEntry_setEntry_off d fs (FSTree.dir cs) fsc q hc hq.2 hq.1

theorem copytree_copies_subtree {fs fs1 : FSTree} {s d : List String}
    (h : copytree fs s d = some fs1) :
    getEntry fs1 d = getEntry fs s := by
  unfold copytree at h
  cases hg : getEntry fs s with
  | none => rw [hg] at h; simp at h
  | some t =>
    rw [hg] at h
    cases t with
    | file c z => simp at h
    | dir cs =>
      simp at h
      exact getEntry_setEntry_self d fs (FSTree.dir cs) fs1 h

/-! ## C1: Root Locator correctness and search order -/

/-- The candidate sequence the spec prescribes for the Root Locator: the
base directory itself, then the base's immediate child directories in
directory-listing order, then its grandchild directories in
directory-listing order. -/
def specSearchOrder (fs : FSTree) (base : List String) : List (List String) :=
  [base] ++ childDirs fs base ++ grandchildDirs fs base

/-- C1: the Root Locator examines candidates in the order base, child
directories (listing order), grandchild directories (listing order) and
returns the first candidate containing both the train-image-named entry and
an entry named `annotations`; in particular a qualifying base wins
immediately, and when no candidate qualifies it fails with an error naming
the base directory and the expected subdirectory name. -/
theorem c1_root_locator_search_order : ∀ (fs : FSTree) (base : List String) (d : String),
    (find_coco_root fs base d =
      match (specSearchOrder fs base).find? (fun c => qualifiesAsRoot fs c d) with
      | some c => Except.ok c
      | none => Except.error (IngestionError.rootNotFound base d)) ∧
    (qualifiesAsRoot fs base d = true → find_coco_root fs base d = Except.ok base) ∧
    ((∀ c ∈ specSearchOrder fs base, qualifiesAsRoot fs c d = false) →
      find_coco_root fs base d = Except.error (IngestionError.rootNotFound base d)) := by
  intro fs base d
  refine ⟨?_, ?_, ?_⟩
  · by_cases hb : qualifiesAsRoot fs base d
    · simp [find_coco_root, hb, specSearchOrder, List.find?]
    · simp [find_coco_root, hb, specSearchOrder, List.find?]
  · intro hb
    simp [find_coco_root, hb]
  · intro hall
    have hb : qualifiesAsRoot fs base d = false :=
      hall base (by simp [specSearchOrder])
    have hnone : (specSearchOrder fs base).find? (fun c => qualifiesAsRoot fs c d) = none :=
      List.find?_eq_none.mpr (fun c hc => by simp [hall c hc])
    simp only [find_coco_root, hb, Bool.false_eq_true, if_false]
    simp only [specSearchOrder] at hnone
    rw [hnone]

/-- Witness for C1: on the concrete payload `fsW` the base itself does not
qualify but its child `download` does (one extra nesting level), and a base
that qualifies is returned directly. -/
theorem c1_root_locator_search_order_witness :
    find_coco_root fsW [] "train2017" = Except.ok ["download"] ∧
    find_coco_root fsW ["download"] "train2017" = Except.ok ["download"] := by
  constructor
  · rw [(c1_root_locator_search_order fsW [] "train2017").1]
    rfl
  · exact (c1_root_locator_search_order fsW ["download"] "train2017").2.1 rfl

/-! ## C8: what "qualifies" actually tests -/

/-- C8 counterexample: in `fsC8` the entries `train2017` and `annotations`
are regular files, not directories, yet the Root Locator returns the base —
the source checks `.exists()`, not directory-ness, so the claim as stated is
false. -/
theorem c8_counterexample :
    isDirB fsC8 ["train2017"] = false ∧ isDirB fsC8 ["annotations"] = false ∧
    isFileB fsC8 ["train2017"] = true ∧ isFileB fsC8 ["annotations"] = true ∧
    find_coco_root fsC8 [] "train2017" = Except.ok [] :=
  ⟨rfl, rfl, rfl, rfl, rfl⟩

/-- C8 (amended): a candidate is returned only if it contains an entry (of
any kind — file or directory) named like the train-image directory and an
entry named `annotations`; directory-ness of those entries is not
required. -/
theorem c8_amended_root_requires_entries :
    ∀ (fs : FSTree) (base : List String) (d : String) (c : List String),
    find_coco_root fs base d = Except.ok c →
    existsPathB fs (c ++ [d]) = true ∧ existsPathB fs (c ++ ["annotations"]) = true := by
  intro fs base d c h
  by_cases hb : qualifiesAsRoot fs base d
  · simp [find_coco_root, hb] at h
    subst h
    simpa [qualifiesAsRoot] using hb
  · simp only [find_coco_root, hb, Bool.false_eq_true, if_false] at h
    cases hf : ([base] ++ childDirs fs base ++ grandchildDirs fs base).find?
        (fun c => qualifiesAsRoot fs c d) with
    | none => rw [hf] at h; simp at h
    | some c0 =>
      rw [hf] at h
      simp at h
      subst h
      have := List.find?_some hf
      simpa [qualifiesAsRoot] using this

/-- Witness for the amended C8, applied at the counterexample base. -/
theorem c8_amended_root_requires_entries_witness :
    existsPathB fsC8 ([] ++ ["train2017"]) = true ∧
    existsPathB fsC8 ([] ++ ["annotations"]) = true :=
  c8_amended_root_requires_entries fsC8 [] "train2017" [] rfl

/-! ## Inversion and composition facts about the materializer -/

theorem copytreeIfMissing_skip {fs : FSTree} {s d : List String}
    (h : existsPathB fs d = true) : copytreeIfMissing fs s d = Except.ok fs := by
  simp [copytreeIfMissing, h]

theorem copytreeIfMissing_error_eq {fs : FSTree} {s d : List String} {e : IngestionError}
    (h : copytreeIfMissing fs s d = Except.error e) : e = IngestionError.copyFailure := by
  by_cases hd : existsPathB fs d
  · simp [copytreeIfMissing, hd] at h
  · simp only [copytreeIfMissing, hd, Bool.false_eq_true, if_neg, if_false] at h
    cases hc : copytree fs s d with
    | none => rw [hc] at h; simp at h; exact h.symm
    | some fsc => rw [hc] at h; simp at h

theorem materializeCopies_ok_inv {cfg : DataIngestionConfig} {root : List String}
    {fs fs3 : FSTree}
    (h : materializeCopies cfg root fs = StepResult.ok fs3) :
    existsPathB fs (root ++ [trainDirname cfg]) = true ∧
    existsPathB fs (root ++ ["annotations"]) = true ∧
    ∃ fs1 fs2,
      copytreeIfMissing fs (root ++ [trainDirname cfg]) cfg.raw_train_image_dir =
        Except.ok fs1 ∧
      (if existsPathB fs1 (root ++ [valDirname cfg]) then
        copytreeIfMissing fs1 (root ++ [valDirname cfg]) cfg.raw_val_image_dir
       else Except.ok fs1) = Except.ok fs2 ∧
      copytreeIfMissing fs2 (root ++ ["annotations"]) cfg.raw_annotation_dir =
        Except.ok fs3 := by
  unfold materializeCopies at h
  by_cases e1 : existsPathB fs (root ++ [trainDirname cfg])
  · by_cases e2 : existsPathB fs (root ++ ["annotations"])
    · simp only [e1, e2] at h
      simp only [Bool.true_eq_false, if_false] at h
      cases h1 : copytreeIfMissing fs (root ++ [trainDirname cfg]) cfg.raw_train_image_dir with
      | error e => rw [h1] at h; simp at h
      | ok fs1 =>
        rw [h1] at h
        simp only [] at h
        cases h2 : (if existsPathB fs1 (root ++ [valDirname cfg]) then
            copytreeIfMissing fs1 (root ++ [valDirname cfg]) cfg.raw_val_image_dir
          else Except.ok fs1) with
        | error e => rw [h2] at h; simp at h
        | ok fs2 =>
          rw [h2] at h
          simp only [] at h
          cases h3 : copytreeIfMissing fs2 (root ++ ["annotations"]) cfg.raw_annotation_dir with
          | error e => rw [h3] at h; simp at h
          | ok fs3' =>
            rw [h3] at h
            simp at h
            subst h
            exact ⟨e1, e2, fs1, fs2, rfl, h2, h3⟩
    · simp only [e1] at h
      simp [eq_false_of_ne_true e2] at h
  · simp [eq_false_of_ne_true e1] at h

theorem materializeCopies_ok_intro {cfg : DataIngestionConfig} {root : List String}
    {fs fs1 fs2 fs3 : FSTree}
    (e1 : existsPathB fs (root ++ [trainDirname cfg]) = true)
    (e2 : existsPathB fs (root ++ ["annotations"]) = true)
    (h1 : copytreeIfMissing fs (root ++ [trainDirname cfg]) cfg.raw_train_image_dir =
      Except.ok fs1)
    (h2 : (if existsPathB fs1 (root ++ [valDirname cfg]) then
        copytreeIfMissing fs1 (root ++ [valDirname cfg]) cfg.raw_val_image_dir
      else Except.ok fs1) = Except.ok fs2)
    (h3 : copytreeIfMissing fs2 (root ++ ["annotations"]) cfg.raw_annotation_dir =
      Except.ok fs3) :
    materializeCopies cfg root fs = StepResult.ok fs3 := by
  unfold materializeCopies
  simp [e1, e2, h1, h2, h3]

theorem materializeRaw_ok_inv {cfg : DataIngestionConfig} {root : List String}
    {fs fs' : FSTree}
    (h : materializeRaw cfg root fs = StepResult.ok fs') :
    materializeCopies cfg root fs = StepResult.ok fs' ∧
    existsPathB fs' cfg.raw_train_annotation_file = true := by
  unfold materializeRaw at h
  cases hm : materializeCopies cfg root fs with
  | err e f => rw [hm] at h; simp at h
  | ok f3 =>
    rw [hm] at h
    by_cases hf : existsPathB f3 cfg.raw_train_annotation_file = false
    · simp [hf] at h
    · have hf' : existsPathB f3 cfg.raw_train_annotation_file = true := by
        simpa using hf
      simp [hf'] at h
      subst h
      exact ⟨rfl, hf'⟩

theorem materializeRaw_ok_intro {cfg : DataIngestionConfig} {root : List String}
    {fs fs3 : FSTree}
    (hm : materializeCopies cfg root fs = StepResult.ok fs3)
    (hf : existsPathB fs3 cfg.raw_train_annotation_file = true) :
    materializeRaw cfg root fs = StepResult.ok fs3 := by
  unfold materializeRaw
  simp [hm, hf]

/-- Successful copy phases only grow the filesystem: every path that existed
before still exists afterwards. -/
theorem materializeCopies_preserve {cfg : DataIngestionConfig} {root : List String}
    {fs fs3 : FSTree}
    (h : materializeCopies cfg root fs = StepResult.ok fs3) :
    ∀ q, existsPathB fs q = true → existsPathB fs3 q = true := by
  obtain ⟨e1, e2, fs1, fs2, h1, h2, h3⟩ := materializeCopies_ok_inv h
  intro q hq
  have s1 := copytreeIfMissing_preserve h1 q hq
  have s2 : existsPathB fs2 q = true := by
    by_cases hv : existsPathB fs1 (root ++ [valDirname cfg])
    · rw [if_pos hv] at h2
      exact copytreeIfMissing_preserve h2 q s1
    · rw [if_neg hv] at h2
      simp at h2
      subst h2
      exact s1
  exact copytreeIfMissing_preserve h3 q s2

/-- Second-run no-op for the whole copy-and-check phase, under the layout
invariant that the validation-image source path does not collide with the
annotation destination directory (the spec's DatasetLayout invariant: no two
layout fields collide). -/
theorem materializeRaw_second_run_noop {cfg : DataIngestionConfig} {root : List String}
    {fs fs' : FSTree}
    (h : materializeRaw cfg root fs = StepResult.ok fs')
    (hcol : pathsComparable (root ++ [valDirname cfg]) cfg.raw_annotation_dir = false) :
    materializeRaw cfg root fs' = StepResult.ok fs' := by
  obtain ⟨hm, hf⟩ := materializeRaw_ok_inv h
  obtain ⟨e1, e2, fs1, fs2, h1, h2, h3⟩ := materializeCopies_ok_inv hm
  have m1 := copytreeIfMissing_preserve h1
  have m2 : ∀ q, existsPathB fs1 q = true → existsPathB fs2 q = true := by
    intro q hq
    by_cases hv : existsPathB fs1 (root ++ [valDirname cfg])
    · rw [if_pos hv] at h2
      exact copytreeIfMissing_preserve h2 q hq
    · rw [if_neg hv] at h2
      simp at h2
      subst h2
      exact hq
  have m3 := copytreeIfMissing_preserve h3
  have t1 : existsPathB fs' (root ++ [trainDirname cfg]) = true := m3 _ (m2 _ (m1 _ e1))
  have t2 : existsPathB fs' (root ++ ["annotations"]) = true := m3 _ (m2 _ (m1 _ e2))
  have dT : existsPathB fs' cfg.raw_train_image_dir = true :=
    m3 _ (m2 _ (copytreeIfMissing_dst_exists h1))
  have dA : existsPathB fs' cfg.raw_annotation_dir = true :=
    copytreeIfMissing_dst_exists h3
  have hval : (if existsPathB fs' (root ++ [valDirname cfg]) then
      copytreeIfMissing fs' (root ++ [valDirname cfg]) cfg.raw_val_image_dir
    else Except.ok fs') = Except.ok fs' := by
    by_cases hv' : existsPathB fs' (root ++ [valDirname cfg])
    · rw [if_pos hv']
      by_cases hv : existsPathB fs1 (root ++ [valDirname cfg])
      · rw [if_pos hv] at h2
        exact copytreeIfMissing_skip (m3 _ (copytreeIfMissing_dst_exists h2))
      · rw [if_neg hv] at h2
        simp at h2
        subst h2
        have hoff := copytreeIfMissing_off h3 hcol
        have heq : existsPathB fs' (root ++ [valDirname cfg]) =
            existsPathB fs1 (root ++ [valDirname cfg]) := by
          simp [existsPathB, hoff]
        rw [heq] at hv'
        exact absurd hv' hv
    · rw [if_neg hv']
  exact materializeRaw_ok_intro
    (materializeCopies_ok_intro t1 t2 (copytreeIfMissing_skip dT) hval
      (copytreeIfMissing_skip dA)) hf

/-! ## C2: Layout Materializer idempotence -/

/-- The base filesystem after `_safe_mkdir(raw_data_dir)` on `fsW`. -/
def fsW0 : FSTree :=
  FSTree.dir [("download", FSTree.dir
    [("train2017", FSTree.dir []),
     ("annotations", FSTree.dir
       [("instances_train2017.json", FSTree.file ("x") none)])]),
    ("data", FSTree.dir [("raw", FSTree.dir [])])]

/-- The filesystem produced by one materialization run on `fsW0`. -/
def fsWdone : FSTree :=
  match materializeRaw cfgW ["download"] fsW0 with
  | StepResult.ok f => f
  | StepResult.err _ f => f

/-- C2: if the destination exists the copy is skipped (filesystem returned
unchanged), otherwise the full source subtree appears at the destination;
consequently a second `_copytree_if_missing` run on the result is a no-op,
and a second full materialization run (under the layout invariant that the
validation source does not collide with the annotation destination) is a
no-op as well — the final contents are identical after one or two runs. -/
theorem c2_layout_materializer_idempotent :
    ∀ (fs : FSTree) (src dst : List String),
    (existsPathB fs dst = true → copytreeIfMissing fs src dst = Except.ok fs) ∧
    (∀ fs1, existsPathB fs dst = false → copytreeIfMissing fs src dst = Except.ok fs1 →
      getEntry fs1 dst = getEntry fs src) ∧
    (∀ fs1, copytreeIfMissing fs src dst = Except.ok fs1 →
      copytreeIfMissing fs1 src dst = Except.ok fs1) ∧
    (∀ (cfg : DataIngestionConfig) (root : List String) (fs' : FSTree),
      materializeRaw cfg root fs = StepResult.ok fs' →
      pathsComparable (root ++ [valDirname cfg]) cfg.raw_annotation_dir = false →
      materializeRaw cfg root fs' = StepResult.ok fs') := by
  intro fs src dst
  refine ⟨copytreeIfMissing_skip, ?_, ?_, ?_⟩
  · intro fs1 hd h
    simp only [copytreeIfMissing, hd, Bool.false_eq_true, if_false] at h
    cases hc : copytree fs src dst with
    | none => rw [hc] at h; simp at h
    | some fsc =>
      rw [hc] at h
      simp at h
      subst h
      exact copytree_copies_subtree hc
  · intro fs1 h
    exact copytreeIfMissing_skip (copytreeIfMissing_dst_exists h)
  · intro cfg root fs' h hcol
    exact materializeRaw_second_run_noop h hcol

/-- Witness for C2: on the concrete layout, a copy into an existing
`data/raw` is skipped, and the materialization that produced `fsWdone` is a
no-op when run a second time. -/
theorem c2_layout_materializer_idempotent_witness :
    copytreeIfMissing fsW0 ["download"] RAW_DATA_DIR = Except.ok fsW0 ∧
    materializeRaw cfgW ["download"] fsWdone = StepResult.ok fsWdone := by
  constructor
  · exact (c2_layout_materializer_idempotent fsW0 ["download"] RAW_DATA_DIR).1 rfl
  · exact (c2_layout_materializer_idempotent fsW0 [] []).2.2.2 cfgW ["download"] fsWdone
      rfl rfl

/-! ## C3: mandatory vs optional sources in the materializer -/

theorem valStep_preserve {cfg : DataIngestionConfig} {root : List String}
    {fs1 fs2 : FSTree}
    (h2 : (if existsPathB fs1 (root ++ [valDirname cfg]) then
        copytreeIfMissing fs1 (root ++ [valDirname cfg]) cfg.raw_val_image_dir
      else Except.ok fs1) = Except.ok fs2) :
    ∀ q, existsPathB fs1 q = true → existsPathB fs2 q = true := by
  intro q hq
  by_cases hv : existsPathB fs1 (root ++ [valDirname cfg])
  · rw [if_pos hv] at h2
    exact copytreeIfMissing_preserve h2 q hq
  · rw [if_neg hv] at h2
    simp at h2
    subst h2
    exact hq

theorem materializeCopies_err_copy {cfg : DataIngestionConfig} {root : List String}
    {fs f : FSTree} {e : IngestionError}
    (e1 : existsPathB fs (root ++ [trainDirname cfg]) = true)
    (e2 : existsPathB fs (root ++ ["annotations"]) = true)
    (h : materializeCopies cfg root fs = StepResult.err e f) :
    e = IngestionError.copyFailure := by
  unfold materializeCopies at h
  simp only [e1, e2, Bool.true_eq_false, if_false] at h
  cases h1 : copytreeIfMissing fs (root ++ [trainDirname cfg]) cfg.raw_train_image_dir with
  | error e' =>
    rw [h1] at h
    simp at h
    rw [← h.1]
    exact copytreeIfMissing_error_eq h1
  | ok fs1 =>
    rw [h1] at h
    simp only [] at h
    cases h2 : (if existsPathB fs1 (root ++ [valDirname cfg]) then
        copytreeIfMissing fs1 (root ++ [valDirname cfg]) cfg.raw_val_image_dir
      else Except.ok fs1) with
    | error e' =>
      rw [h2] at h
      simp at h
      rw [← h.1]
      by_cases hv : existsPathB fs1 (root ++ [valDirname cfg])
      · rw [if_pos hv] at h2
        exact copytreeIfMissing_error_eq h2
      · rw [if_neg hv] at h2
        simp at h2
    | ok fs2 =>
      rw [h2] at h
      simp only [] at h
      cases h3 : copytreeIfMissing fs2 (root ++ ["annotations"]) cfg.raw_annotation_dir with
      | error e' =>
        rw [h3] at h
        simp at h
        rw [← h.1]
        exact copytreeIfMissing_error_eq h3
      | ok fs3 =>
        rw [h3] at h
        simp at h

theorem materializeRaw_ok_dsts {cfg : DataIngestionConfig} {root : List String}
    {fs fs' : FSTree}
    (h : materializeRaw cfg root fs = StepResult.ok fs') :
    existsPathB fs' cfg.raw_train_image_dir = true ∧
    existsPathB fs' cfg.raw_annotation_dir = true := by
  obtain ⟨hm, _⟩ := materializeRaw_ok_inv h
  obtain ⟨e1, e2, fs1, fs2, h1, h2, h3⟩ := materializeCopies_ok_inv hm
  exact ⟨copytreeIfMissing_preserve h3 _
      (valStep_preserve h2 _ (copytreeIfMissing_dst_exists h1)),
    copytreeIfMissing_dst_exists h3⟩

/-- C3: a missing mandatory source (train images or annotations directory)
makes the materializer fail with an error naming a missing path before any
copy is attempted — the filesystem the error reports is the input filesystem
unchanged; when only the validation-image source is missing the materializer
never raises a missing-source error, and on success the train-image and
annotation destinations are populated. -/
theorem c3_mandatory_vs_optional_sources :
    ∀ (cfg : DataIngestionConfig) (root : List String) (fs : FSTree),
    ((existsPathB fs (root ++ [trainDirname cfg]) = false ∨
        existsPathB fs (root ++ ["annotations"]) = false) →
      ∃ p, existsPathB fs p = false ∧
        materializeRaw cfg root fs =
          StepResult.err (IngestionError.missingSource p) fs) ∧
    (existsPathB fs (root ++ [trainDirname cfg]) = true →
      existsPathB fs (root ++ ["annotations"]) = true →
      existsPathB fs (root ++ [valDirname cfg]) = false →
      (∀ p fs1, materializeRaw cfg root fs ≠
          StepResult.err (IngestionError.missingSource p) fs1) ∧
      (∀ fs', materializeRaw cfg root fs = StepResult.ok fs' →
        existsPathB fs' cfg.raw_train_image_dir = true ∧
        existsPathB fs' cfg.raw_annotation_dir = true)) := by
  intro cfg root fs
  constructor
  · intro hOr
    by_cases hT : existsPathB fs (root ++ [trainDirname cfg]) = false
    · exact ⟨_, hT, by unfold materializeRaw materializeCopies; simp [hT]⟩
    · have hT' : existsPathB fs (root ++ [trainDirname cfg]) = true := by
        simpa using hT
      have hA : existsPathB fs (root ++ ["annotations"]) = false := by
        rcases hOr with h | h
        · exact absurd h hT
        · exact h
      exact ⟨_, hA, by unfold materializeRaw materializeCopies; simp [hT', hA]⟩
  · intro e1 e2 _
    constructor
    · intro p fs1 hcontra
      unfold materializeRaw at hcontra
      cases hm : materializeCopies cfg root fs with
      | err e f =>
        rw [hm] at hcontra
        simp at hcontra
        have := materializeCopies_err_copy e1 e2 hm
        rw [this] at hcontra
        exact absurd hcontra.1 (by intro hh; cases hh)
      | ok f3 =>
        rw [hm] at hcontra
        by_cases hf : existsPathB f3 cfg.raw_train_annotation_file = false
        · simp [hf] at hcontra
        · have hf' : existsPathB f3 cfg.raw_train_annotation_file = true := by
            simpa using hf
          simp [hf'] at hcontra
    · intro fs' h
      exact materializeRaw_ok_dsts h

/-- A payload directory whose located root lacks the mandatory train-image
source. -/
def fsNoTrain : FSTree :=
  FSTree.dir [("download", FSTree.dir [("annotations", FSTree.dir [])])]

/-- Witness for C3: the missing train source fails with a missing-source
error and an unchanged filesystem, while the run with only the validation
source missing populates both mandatory destinations. -/
theorem c3_mandatory_vs_optional_sources_witness :
    (∃ p, existsPathB fsNoTrain p = false ∧
      materializeRaw cfgW ["download"] fsNoTrain =
        StepResult.err (IngestionError.missingSource p) fsNoTrain) ∧
    existsPathB fsWdone cfgW.raw_train_image_dir = true ∧
    existsPathB fsWdone cfgW.raw_annotation_dir = true := by
  refine ⟨(c3_mandatory_vs_optional_sources cfgW ["download"] fsNoTrain).1 (Or.inl rfl), ?_⟩
  exact ((c3_mandatory_vs_optional_sources cfgW ["download"] fsW0).2 rfl rfl rfl).2
    fsWdone rfl

/-! ## C4: Path Validator two-tier policy -/

/-- C4: a missing required path (raw root, train-image directory, annotation
directory, or train-annotation file) makes validation fail with an error
naming a missing required path, while validation succeeds whenever all four
required paths exist — regardless of the optional validation paths. -/
theorem c4_path_validator_two_tier :
    ∀ (cfg : DataIngestionConfig) (fs : FSTree),
    ((∃ p, p ∈ requiredPaths cfg ∧ existsPathB fs p = false) →
      ∃ p, p ∈ requiredPaths cfg ∧ existsPathB fs p = false ∧
        validate_raw_paths cfg fs =
          StepResult.err (IngestionError.missingRequired p) fs) ∧
    ((∀ p, p ∈ requiredPaths cfg → existsPathB fs p = true) →
      validate_raw_paths cfg fs = StepResult.ok fs) := by
  intro cfg fs
  constructor
  · intro hex
    by_cases h1 : existsPathB fs cfg.raw_data_dir = false
    · exact ⟨cfg.raw_data_dir, by simp [requiredPaths], h1,
        by simp [validate_raw_paths, h1]⟩
    · have g1 : existsPathB fs cfg.raw_data_dir = true := by simpa using h1
      by_cases h2 : existsPathB fs cfg.raw_train_image_dir = false
      · exact ⟨cfg.raw_train_image_dir, by simp [requiredPaths], h2,
          by simp [validate_raw_paths, g1, h2]⟩
      · have g2 : existsPathB fs cfg.raw_train_image_dir = true := by simpa using h2
        by_cases h3 : existsPathB fs cfg.raw_annotation_dir = false
        · exact ⟨cfg.raw_annotation_dir, by simp [requiredPaths], h3,
            by simp [validate_raw_paths, g1, g2, h3]⟩
        · have g3 : existsPathB fs cfg.raw_annotation_dir = true := by simpa using h3
          by_cases h4 : existsPathB fs cfg.raw_train_annotation_file = false
          · exact ⟨cfg.raw_train_annotation_file, by simp [requiredPaths], h4,
              by simp [validate_raw_paths, g1, g2, g3, h4]⟩
          · have g4 : existsPathB fs cfg.raw_train_annotation_file = true := by
              simpa using h4
            obtain ⟨p, hp, hfalse⟩ := hex
            simp [requiredPaths] at hp
            rcases hp with rfl | rfl | rfl | rfl
            · rw [g1] at hfalse; cases hfalse
            · rw [g2] at hfalse; cases hfalse
            · rw [g3] at hfalse; cases hfalse
            · rw [g4] at hfalse; cases hfalse
  · intro hall
    have g1 := hall cfg.raw_data_dir (by simp [requiredPaths])
    have g2 := hall cfg.raw_train_image_dir (by simp [requiredPaths])
    have g3 := hall cfg.raw_annotation_dir (by simp [requiredPaths])
    have g4 := hall cfg.raw_train_annotation_file (by simp [requiredPaths])
    simp [validate_raw_paths, g1, g2, g3, g4]

/-- Witness for C4: the materialized layout passes validation (with the
optional validation paths absent), and the empty-raw layout fails naming a
missing required path. -/
theorem c4_path_validator_two_tier_witness :
    validate_raw_paths cfgW fsWdone = StepResult.ok fsWdone ∧
    (∃ p, p ∈ requiredPaths cfgW ∧ existsPathB fsW p = false ∧
      validate_raw_paths cfgW fsW =
        StepResult.err (IngestionError.missingRequired p) fsW) := by
  constructor
  · refine (c4_path_validator_two_tier cfgW fsWdone).2 ?_
    intro p hp
    simp [requiredPaths] at hp
    rcases hp with rfl | rfl | rfl | rfl <;> rfl
  · exact (c4_path_validator_two_tier cfgW fsW).1
      ⟨cfgW.raw_data_dir, by simp [requiredPaths], rfl⟩

/-! ## C10: the train-annotation-file postcondition of preparation -/

theorem prepareFrom_ok_inv {cfg : DataIngestionConfig} {working : List String}
    {fs fs' : FSTree}
    (h : prepareFrom cfg working fs = StepResult.ok fs') :
    ∃ root, find_coco_root fs working (trainDirname cfg) = Except.ok root ∧
      materializeRaw cfg root fs = StepResult.ok fs' := by
  unfold prepareFrom at h
  cases hf : find_coco_root fs working (trainDirname cfg) with
  | error e => rw [hf] at h; simp at h
  | ok root =>
    rw [hf] at h
    exact ⟨root, rfl, h⟩

theorem prepare_ok_inv {cfg : DataIngestionConfig} {dl : List String} {fs fs' : FSTree}
    (h : prepare_raw_data_dir cfg dl fs = StepResult.ok fs') :
    ∃ w fsx root, find_coco_root fsx w (trainDirname cfg) = Except.ok root ∧
      materializeRaw cfg root fsx = StepResult.ok fs' := by
  unfold prepare_raw_data_dir at h
  cases hk : safeMkdir fs cfg.raw_data_dir with
  | none => rw [hk] at h; simp at h
  | some fs0 =>
    rw [hk] at h
    simp only [] at h
    by_cases hz : is_zip fs0 dl
    · rw [if_pos hz] at h
      cases he : extract_zip fs0 dl (cfg.raw_data_dir ++ ["_tmp_extract"]) with
      | none => rw [he] at h; simp at h
      | some fs1 =>
        rw [he] at h
        obtain ⟨root, hf, hm⟩ := prepareFrom_ok_inv h
        exact ⟨_, fs1, root, hf, hm⟩
    · rw [if_neg hz] at h
      obtain ⟨root, hf, hm⟩ := prepareFrom_ok_inv h
      exact ⟨dl, fs0, root, hf, hm⟩

/-- C10: whenever raw-layout preparation returns successfully the configured
train-annotation file exists; when the copy phase succeeds but the file is
still missing, preparation fails with an error naming that file (at the
filesystem state reached after the copies); and the file being present is
the only remaining condition for success — the validation-annotation file is
never required. -/
theorem c10_train_annotation_postcondition :
    ∀ (cfg : DataIngestionConfig) (fs : FSTree),
    (∀ dl fs', prepare_raw_data_dir cfg dl fs = StepResult.ok fs' →
      existsPathB fs' cfg.raw_train_annotation_file = true) ∧
    (∀ root fs3, materializeCopies cfg root fs = StepResult.ok fs3 →
      existsPathB fs3 cfg.raw_train_annotation_file = false →
      materializeRaw cfg root fs =
        StepResult.err
          (IngestionError.missingTrainAnnFile cfg.raw_train_annotation_file) fs3) ∧
    (∀ root fs3, materializeCopies cfg root fs = StepResult.ok fs3 →
      existsPathB fs3 cfg.raw_train_annotation_file = true →
      materializeRaw cfg root fs = StepResult.ok fs3) := by
  intro cfg fs
  refine ⟨?_, ?_, ?_⟩
  · intro dl fs' h
    obtain ⟨w, fsx, root, _, hm⟩ := prepare_ok_inv h
    exact (materializeRaw_ok_inv hm).2
  · intro root fs3 hm hf
    unfold materializeRaw
    simp [hm, hf]
  · intro root fs3 hm hf
    exact materializeRaw_ok_intro hm hf

/-- The filesystem after a successful preparation run on `fsW`. -/
def fsPrep : FSTree :=
  match prepare_raw_data_dir cfgW ["download"] fsW with
  | StepResult.ok f => f
  | StepResult.err _ f => f

/-- Witness for C10: after the concrete preparation run the train-annotation
file exists, while the validation-annotation file does not (the run
succeeded regardless). -/
theorem c10_train_annotation_postcondition_witness :
    existsPathB fsPrep cfgW.raw_train_annotation_file = true ∧
    existsPathB fsPrep cfgW.raw_val_annotation_file = false := by
  constructor
  · exact (c10_train_annotation_postcondition cfgW fsW).1 ["download"] fsPrep rfl
  · rfl

/-! ## C5: the orchestrator state machine -/

theorem write_manifest_ok_inv {cfg : DataIngestionConfig} {now : String} {fs fs3 : FSTree}
    (h : write_manifest cfg now fs = StepResult.ok fs3) :
    getEntry fs3 cfg.manifest_file_path =
      some (FSTree.file (manifest_text cfg now) none) := by
  unfold write_manifest at h
  cases hk : safeMkdir fs cfg.data_ingestion_dir with
  | none => rw [hk] at h; simp at h
  | some fs0 =>
    rw [hk] at h
    simp only [] at h
    cases hw : writeFile fs0 cfg.manifest_file_path (manifest_text cfg now) with
    | none => rw [hw] at h; simp at h
    | some fs1 =>
      rw [hw] at h
      simp at h
      subst h
      unfold writeFile at hw
      by_cases hd : isDirB fs0 cfg.manifest_file_path
      · simp [hd] at hw
      · rw [if_neg hd] at hw
        by_cases hp : isDirB fs0 cfg.manifest_file_path.dropLast
        · rw [if_pos hp] at hw
          exact getEntry_setEntry_self _ _ _ _ hw
        · simp [hp] at hw

theorem initiate_ok_inv {cfg : DataIngestionConfig} {downloaded : Option (List String)}
    {now : String} {fs : FSTree} {art : DataIngestionArtifact} {fs' : FSTree}
    (h : initiate_data_ingestion cfg downloaded now fs = RunOutcome.ok art fs') :
    (∃ fs2, write_manifest cfg now fs2 = StepResult.ok fs') ∧
    art = { data_ingestion_dir := cfg.data_ingestion_dir,
            manifest_file_path := cfg.manifest_file_path,
            ingestion_mode := cfg.ingestion_mode } := by
  unfold initiate_data_ingestion at h
  cases downloaded with
  | none => simp at h
  | some dl =>
    simp only [] at h
    cases hp : prepare_raw_data_dir cfg dl fs with
    | err e f => rw [hp] at h; simp at h
    | ok fs1 =>
      rw [hp] at h
      simp only [] at h
      cases hv : validate_raw_paths cfg fs1 with
      | err e f => rw [hv] at h; simp at h
      | ok fs2 =>
        rw [hv] at h
        simp only [] at h
        cases hw : write_manifest cfg now fs2 with
        | err e f => rw [hw] at h; simp at h
        | ok fs3 =>
          rw [hw] at h
          simp at h
          obtain ⟨ha, hf⟩ := h
          subst hf
          exact ⟨⟨fs2, hw⟩, ha.symm⟩

/-- C5: the orchestrator aborts immediately with the failing stage's single
error — acquisition failure, preparation failure, validation failure, or
manifest-write failure, each reported at the filesystem state that failure
left behind (no rollback) — and a successful run returns the artifact whose
directory, manifest path and mode equal the configuration's values; the
archive-expansion step is taken only when the payload is a zip archive. -/
theorem c5_orchestrator_stages :
    ∀ (cfg : DataIngestionConfig) (downloaded : Option (List String)) (now : String)
      (fs : FSTree),
    (downloaded = none → initiate_data_ingestion cfg downloaded now fs =
      RunOutcome.err IngestionError.acquisitionFailure fs) ∧
    (∀ dl e fs1, downloaded = some dl →
      prepare_raw_data_dir cfg dl fs = StepResult.err e fs1 →
      initiate_data_ingestion cfg downloaded now fs = RunOutcome.err e fs1) ∧
    (∀ dl fs1 e fs2, downloaded = some dl →
      prepare_raw_data_dir cfg dl fs = StepResult.ok fs1 →
      validate_raw_paths cfg fs1 = StepResult.err e fs2 →
      initiate_data_ingestion cfg downloaded now fs = RunOutcome.err e fs2) ∧
    (∀ dl fs1 fs2 e fs3, downloaded = some dl →
      prepare_raw_data_dir cfg dl fs = StepResult.ok fs1 →
      validate_raw_paths cfg fs1 = StepResult.ok fs2 →
      write_manifest cfg now fs2 = StepResult.err e fs3 →
      initiate_data_ingestion cfg downloaded now fs = RunOutcome.err e fs3) ∧
    (∀ art fs', initiate_data_ingestion cfg downloaded now fs = RunOutcome.ok art fs' →
      art = { data_ingestion_dir := cfg.data_ingestion_dir,
              manifest_file_path := cfg.manifest_file_path,
              ingestion_mode := cfg.ingestion_mode }) ∧
    (∀ dl fs0, downloaded = some dl →
      safeMkdir fs cfg.raw_data_dir = some fs0 → is_zip fs0 dl = false →
      prepare_raw_data_dir cfg dl fs = prepareFrom cfg dl fs0) ∧
    (∀ dl fs0, downloaded = some dl →
      safeMkdir fs cfg.raw_data_dir = some fs0 → is_zip fs0 dl = true →
      prepare_raw_data_dir cfg dl fs =
        (match extract_zip fs0 dl (cfg.raw_data_dir ++ ["_tmp_extract"]) with
         | none => StepResult.err IngestionError.extractionFailure fs0
         | some fs1 => prepareFrom cfg (cfg.raw_data_dir ++ ["_tmp_extract"]) fs1)) := by
  intro cfg downloaded now fs
  refine ⟨?_, ?_, ?_, ?_, ?_, ?_, ?_⟩
  · intro hnone
    subst hnone
    rfl
  · intro dl e fs1 hdl hprep
    subst hdl
    unfold initiate_data_ingestion
    simp [hprep]
  · intro dl fs1 e fs2 hdl hprep hval
    subst hdl
    unfold initiate_data_ingestion
    simp [hprep, hval]
  · intro dl fs1 fs2 e fs3 hdl hprep hval hman
    subst hdl
    unfold initiate_data_ingestion
    simp [hprep, hval, hman]
  · intro art fs' h
    exact (initiate_ok_inv h).2
  · intro dl fs0 hdl hmk hz
    subst hdl
    unfold prepare_raw_data_dir
    simp [hmk, hz]
  · intro dl fs0 hdl hmk hz
    subst hdl
    unfold prepare_raw_data_dir
    simp [hmk, hz]

/-- The final filesystem of the concrete successful run. -/
def fsFinal : FSTree :=
  match initiate_data_ingestion cfgW (some ["download"]) "2024-01-02T03:04:05" fsW with
  | RunOutcome.ok _ f => f
  | RunOutcome.err _ f => f

/-- The artifact of the concrete successful run. -/
def artFinal : DataIngestionArtifact :=
  match initiate_data_ingestion cfgW (some ["download"]) "2024-01-02T03:04:05" fsW with
  | RunOutcome.ok a _ => a
  | RunOutcome.err _ _ =>
    { data_ingestion_dir := [], manifest_file_path := [], ingestion_mode := "" }

/-- Witness for C5: the concrete run succeeds and its artifact fields equal
the configuration's values. -/
theorem c5_orchestrator_stages_witness :
    artFinal = { data_ingestion_dir := cfgW.data_ingestion_dir,
                 manifest_file_path := cfgW.manifest_file_path,
                 ingestion_mode := cfgW.ingestion_mode } :=
  (c5_orchestrator_stages cfgW (some ["download"]) "2024-01-02T03:04:05" fsW).2.2.2.2.1
    artFinal fsFinal rfl

/-! ## C6: the manifest round trip -/

/-- C6: after every successful run the manifest file exists at the
configured path with exactly the written YAML text, and that text is the
rendering of the documented ten-field manifest whose `raw` values are the
configuration's resolved paths and whose mode is the configured mode. -/
theorem c6_manifest_round_trip :
    ∀ (cfg : DataIngestionConfig) (downloaded : Option (List String)) (now : String)
      (fs : FSTree) (art : DataIngestionArtifact) (fs' : FSTree),
    initiate_data_ingestion cfg downloaded now fs = RunOutcome.ok art fs' →
    getEntry fs' cfg.manifest_file_path =
      some (FSTree.file (manifest_text cfg now) none) ∧
    manifest_text cfg now = renderManifest (manifestOfRun cfg now) := by
  intro cfg downloaded now fs art fs' h
  obtain ⟨⟨fs2, hw⟩, _⟩ := initiate_ok_inv h
  exact ⟨write_manifest_ok_inv hw, rfl⟩

/-- Witness for C6, at the concrete successful run. -/
theorem c6_manifest_round_trip_witness :
    getEntry fsFinal cfgW.manifest_file_path =
      some (FSTree.file (manifest_text cfgW "2024-01-02T03:04:05") none) :=
  (c6_manifest_round_trip cfgW (some ["download"]) "2024-01-02T03:04:05" fsW
    artFinal fsFinal rfl).1

/-! ## C7: the entry point reads an undefined configuration attribute -/

/-- C7 (code bug): `main()` logs `data_ingestion_config.dataset_format`, an
attribute `DataIngestionConfig.__init__` never defines, so every invocation
raises (wrapped) before the data-ingestion stage is reached — the entry
point can never complete normally, contradicting the claim. -/
theorem c7_entry_point_reads_undefined_attribute :
    ("dataset_format" ∈ mainDataIngestionConfigReads ∧
      "dataset_format" ∉ dataIngestionConfigAttributes) ∧
    ∀ (cfg : DataIngestionConfig) (downloaded : Option (List String))
      (now : String) (fs : FSTree),
      main_run cfg downloaded now fs =
        RunOutcome.err (IngestionError.attributeError ("dataset_format")) fs := by
  refine ⟨⟨by decide, by decide⟩, ?_⟩
  intro cfg downloaded now fs
  rfl

/-! ## C9: the artifact directory is not run-unique within a process -/

/-- C9 (code bug): the `datetime.now()` default of
`TrainingPipelineConfig.__init__` is evaluated once at class-definition
time, so two constructions in the same process — at any two construction
times — receive the same timestamp and therefore the same artifact
directory, which is `artifacts/<import-time timestamp>`. -/
theorem c9_artifact_dir_not_run_unique :
    ∀ (importNow callTime1 callTime2 : PyDatetime),
    (trainingPipelineConfig_init importNow callTime1 none).artifact_dir =
      (trainingPipelineConfig_init importNow callTime2 none).artifact_dir ∧
    (trainingPipelineConfig_init importNow callTime1 none).artifact_dir =
      [ARTIFACTS_DIR, strftimeRunFormat importNow] := by
  intro importNow callTime1 callTime2
  exact ⟨rfl, rfl⟩

end NIVRag
